import Mathlib

/-!
Verification of the polling primitives of the getmotion client library.

The development shallowly embeds the two wait loops of the repository:

* `Job.wait_for` (src/getmotion/resources/jobs.py, lines 154-183): poll the
  job-status endpoint until the payload's `status` equals the target, raising
  `JobFailedError` on a `"FAILED"` payload and `WaitTimeout` when the
  monotonic deadline elapses, logging each changed `step_detail` once.

* `_wait_for_storyboard_session` (src/getmotion/resources/storyboard.py,
  lines 13-58): poll the storyboard endpoint until `exists` is truthy; on each
  not-ready tick it best-effort reads the job status (exceptions from that
  secondary read are suppressed, except the deliberate `JobFailedError`).

Modelling choices, all mirroring the Python source:

* A fetch (one `http.get`) either returns a payload or raises a transport
  error; the whole future fetch sequence is supplied as a list, and running
  out of the list is reported as a distinguished `outOfFetches` result (the
  real loop would simply keep polling).
* `time.monotonic()` readings are supplied by an oracle `clock : Nat → Nat`:
  reading number 0 is the one taken when the deadline is computed, reading
  number `i + 1` is the one taken by the timeout check of iteration `i`.
  `time.sleep` does not advance the oracle by itself; it is recorded in the
  trace as a count of sleeps.
* Python truthiness of `step_detail` (`if detail and ...`): `None` and the
  empty string are falsy.
* `data.get("status", "")` in jobs.py defaults a missing status to `""`,
  while storyboard.py uses `status_data.get("status")` with no default; the
  two embeddings keep that difference.
-/

/-- The `error` sub-object of a status payload: `code` and `detail`, each
possibly absent (`error.get("code")` / `error.get("detail")`). -/
structure ErrorInfo where
  code : Option String
  detail : Option String
deriving DecidableEq, Repr

/-- The fields of the job-status payload that `wait_for` and the storyboard
wait actually read.  `status = none` models a payload without a `"status"`
key; `step_detail = none` models an absent or `None` step detail; and
`error = none` models `data.get("error") or ` an empty dict being falsy. -/
structure StatusPayload where
  status : Option String
  step_detail : Option String
  error : Option ErrorInfo
deriving DecidableEq, Repr

/-- Outcome of one fetch of the job-status endpoint: a payload, or a
transport-level exception raised by `self.status()`. -/
inductive FetchResult where
  | ok (p : StatusPayload)
  | err
deriving DecidableEq, Repr

/-- How a run of `Job.wait_for` terminates. -/
inductive WaitResult where
  | reached (p : StatusPayload)
  | jobFailed (job_id : String) (code : Option String) (detail : Option String)
  | timedOut (job_id : String) (target : String) (timeout : Nat)
  | transportError
  | outOfFetches
deriving DecidableEq, Repr

/-- Observable trace of one invocation of `Job.wait_for`: the terminal
result, the number of fetches performed, the progress notifications emitted
via `logger.info` (in order), and the number of `time.sleep` calls. -/
structure WaitTrace where
  result : WaitResult
  fetches : Nat
  notes : List String
  sleeps : Nat
deriving DecidableEq, Repr

/-- The progress-notification step shared by both loops
(`if detail and detail != _last_detail: logger.info(...); _last_detail = detail`):
given the payload's `step_detail` and the current `_last_detail`, return the
notifications emitted on this tick and the new `_last_detail`. -/
def detailUpdate (step_detail : Option String) (last : Option String) :
    List String × Option String :=
  match step_detail with
  | none => ([], last)
  | some d => if d = "" then ([], last)
              else if some d = last then ([], last)
              else ([d], some d)

/-- The `while True` body of `Job.wait_for` (jobs.py lines 158-183), recursing
over the oracle of future fetch outcomes.  `i` is the iteration index (so the
timeout check of this iteration reads `clock (i + 1)`), `last` is
`_last_detail`. -/
def waitForLoop (job_id target : String) (timeout deadline : Nat)
    (clock : Nat → Nat) : Nat → Option String → List FetchResult → WaitTrace
  | _, _, [] => ⟨.outOfFetches, 0, [], 0⟩
  | _, _, .err :: _ => ⟨.transportError, 1, [], 0⟩
  | i, last, .ok data :: rest =>
    let current := data.status.getD ""
    let nd := detailUpdate data.step_detail last
    if current = target then
      ⟨.reached data, 1, nd.1, 0⟩
    else if current = "FAILED" then
      ⟨.jobFailed job_id (data.error.bind ErrorInfo.code)
        (data.error.bind ErrorInfo.detail), 1, nd.1, 0⟩
    else if deadline ≤ clock (i + 1) then
      ⟨.timedOut job_id target timeout, 1, nd.1, 0⟩
    else
      let t := waitForLoop job_id target timeout deadline clock (i + 1) nd.2 rest
      ⟨t.result, t.fetches + 1, nd.1 ++ t.notes, t.sleeps + 1⟩

namespace Job

/-- `Job.wait_for` (jobs.py lines 154-183): compute
`deadline = time.monotonic() + timeout` once, initialize `_last_detail` to
`None`, and run the polling loop. -/
def wait_for (job_id status : String) (timeout : Nat) (clock : Nat → Nat)
    (fetches : List FetchResult) : WaitTrace :=
  waitForLoop job_id status timeout (clock 0 + timeout) clock 0 none fetches

end Job

/-- The fields of the primary storyboard payload the wait reads: the
truthiness of `data.get("exists")`, plus an abstract stand-in for the session
fields returned unchanged when the storyboard is ready. -/
structure SbData where
  sb_exists : Bool
  payload_id : Nat
deriving DecidableEq, Repr

/-- Outcome of the secondary (best-effort) read of
`GET /jobs/id/status` inside the storyboard wait: a payload, or an exception
raised by `http.get` (suppressed by the `except Exception: pass`). -/
inductive SecFetch where
  | ok (p : StatusPayload)
  | err
deriving DecidableEq, Repr

/-- One tick of the storyboard wait: the primary
`GET /jobs/id/storyboard` either raises (never suppressed) or returns a
payload, together with what the secondary status read would yield on this
tick (only consulted when the storyboard does not exist yet). -/
inductive SbTick where
  | primaryErr
  | ok (d : SbData) (sec : SecFetch)
deriving DecidableEq, Repr

/-- How a run of `_wait_for_storyboard_session` terminates. -/
inductive SbResult where
  | ready (d : SbData)
  | jobFailed (job_id : String) (code : Option String) (detail : Option String)
  | timedOut (job_id : String) (target : String) (timeout : Nat)
  | transportError
  | outOfTicks
deriving DecidableEq, Repr

/-- Observable trace of one invocation of `_wait_for_storyboard_session`:
terminal result, number of primary fetches, notifications, sleeps. -/
structure SbTrace where
  result : SbResult
  fetches : Nat
  notes : List String
  sleeps : Nat
deriving DecidableEq, Repr

/-- The `while True` body of `_wait_for_storyboard_session` (storyboard.py
lines 30-58).  A primary-fetch exception propagates.  When the storyboard
exists the payload is returned.  Otherwise the secondary status read runs
under `try/except`: if it raises, the tick silently falls through to the
timeout check; if it returns a payload, the step-detail notification runs and
a `"FAILED"` status raises `JobFailedError`, which the handler re-raises. -/
def sbLoop (job_id : String) (timeout deadline : Nat)
    (clock : Nat → Nat) : Nat → Option String → List SbTick → SbTrace
  | _, _, [] => ⟨.outOfTicks, 0, [], 0⟩
  | _, _, .primaryErr :: _ => ⟨.transportError, 1, [], 0⟩
  | i, last, .ok d sec :: rest =>
    if d.sb_exists then ⟨.ready d, 1, [], 0⟩
    else
      match sec with
      | .err =>
        if deadline ≤ clock (i + 1) then
          ⟨.timedOut job_id "STORYBOARD_READY" timeout, 1, [], 0⟩
        else
          let t := sbLoop job_id timeout deadline clock (i + 1) last rest
          ⟨t.result, t.fetches + 1, t.notes, t.sleeps + 1⟩
      | .ok p =>
        let nd := detailUpdate p.step_detail last
        if p.status = some "FAILED" then
          ⟨.jobFailed job_id (p.error.bind ErrorInfo.code)
            (p.error.bind ErrorInfo.detail), 1, nd.1, 0⟩
        else if deadline ≤ clock (i + 1) then
          ⟨.timedOut job_id "STORYBOARD_READY" timeout, 1, nd.1, 0⟩
        else
          let t := sbLoop job_id timeout deadline clock (i + 1) nd.2 rest
          ⟨t.result, t.fetches + 1, nd.1 ++ t.notes, t.sleeps + 1⟩

/-- `_wait_for_storyboard_session` (storyboard.py lines 13-58): compute
`deadline = _time.monotonic() + timeout` once, initialize `_last_detail` to
`None`, and run the polling loop. -/
def _wait_for_storyboard_session (job_id : String) (timeout : Nat)
    (clock : Nat → Nat) (ticks : List SbTick) : SbTrace :=
  sbLoop job_id timeout (clock 0 + timeout) clock 0 none ticks

/-!
Small-step presentation of the two waits, used to state that interleaved
invocations do not interfere: one step is one loop iteration (fetch, notify,
status checks, sleep), all state of an invocation — its clock-read index,
`_last_detail`, accumulated effects, pending fetch stream, and outcome, —
lives in that invocation's own `LoopState`.
-/

/-- The per-invocation inputs of `Job.wait_for`: the job, the target status,
the timeout and the monotonic-clock oracle. -/
structure WaitConfig where
  job_id : String
  target : String
  timeout : Nat
  clock : Nat → Nat

/-- The whole mutable state of one `Job.wait_for` invocation: the iteration
index (clock-read position), `_last_detail`, the effect counters, the fetch
outcomes not yet consumed, and the terminal outcome once the loop exits. -/
structure LoopState where
  iter : Nat
  lastDetail : Option String
  fetchesDone : Nat
  notes : List String
  sleeps : Nat
  rem : List FetchResult
  outcome : Option WaitResult
deriving DecidableEq, Repr

/-- Fresh state at wait-start: `_last_detail = None`, nothing fetched,
emitted, or slept. -/
def initState (fetches : List FetchResult) : LoopState :=
  ⟨0, none, 0, [], 0, fetches, none⟩

/-- One iteration of the `Job.wait_for` loop as a state transformer; a
finished invocation is left unchanged. -/
def stepOnce (cfg : WaitConfig) (s : LoopState) : LoopState :=
  match s.outcome with
  | some _ => s
  | none =>
    match s.rem with
    | [] => { s with outcome := some .outOfFetches }
    | .err :: rest =>
      { s with
        rem := rest, fetchesDone := s.fetchesDone + 1,
        outcome := some .transportError }
    | .ok data :: rest =>
      let current := data.status.getD ""
      let nd := detailUpdate data.step_detail s.lastDetail
      let s1 := { s with
        rem := rest, fetchesDone := s.fetchesDone + 1,
        notes := s.notes ++ nd.1, lastDetail := nd.2 }
      if current = cfg.target then
        { s1 with outcome := some (.reached data) }
      else if current = "FAILED" then
        { s1 with
          outcome := some (.jobFailed cfg.job_id
            (data.error.bind ErrorInfo.code)
            (data.error.bind ErrorInfo.detail)) }
      else if cfg.clock 0 + cfg.timeout ≤ cfg.clock (s.iter + 1) then
        { s1 with
          outcome := some (.timedOut cfg.job_id cfg.target cfg.timeout) }
      else
        { s1 with iter := s.iter + 1, sleeps := s.sleeps + 1 }

/-- The per-invocation inputs of `_wait_for_storyboard_session`. -/
structure SbConfig where
  job_id : String
  timeout : Nat
  clock : Nat → Nat

/-- The whole mutable state of one `_wait_for_storyboard_session`
invocation. -/
structure SbLoopState where
  iter : Nat
  lastDetail : Option String
  fetchesDone : Nat
  notes : List String
  sleeps : Nat
  rem : List SbTick
  outcome : Option SbResult
deriving DecidableEq, Repr

/-- Fresh storyboard-wait state at wait-start. -/
def sbInitState (ticks : List SbTick) : SbLoopState :=
  ⟨0, none, 0, [], 0, ticks, none⟩

/-- One iteration of the `_wait_for_storyboard_session` loop as a state
transformer; a finished invocation is left unchanged. -/
def sbStepOnce (cfg : SbConfig) (s : SbLoopState) : SbLoopState :=
  match s.outcome with
  | some _ => s
  | none =>
    match s.rem with
    | [] => { s with outcome := some .outOfTicks }
    | .primaryErr :: rest =>
      { s with
        rem := rest, fetchesDone := s.fetchesDone + 1,
        outcome := some .transportError }
    | .ok d sec :: rest =>
      if d.sb_exists then
        { s with
          rem := rest, fetchesDone := s.fetchesDone + 1,
          outcome := some (.ready d) }
      else
        match sec with
        | .err =>
          if cfg.clock 0 + cfg.timeout ≤ cfg.clock (s.iter + 1) then
            { s with
              rem := rest, fetchesDone := s.fetchesDone + 1,
              outcome := some (.timedOut cfg.job_id "STORYBOARD_READY"
                cfg.timeout) }
          else
            { s with
              rem := rest, fetchesDone := s.fetchesDone + 1,
              iter := s.iter + 1, sleeps := s.sleeps + 1 }
        | .ok p =>
          let nd := detailUpdate p.step_detail s.lastDetail
          let s1 := { s with
            rem := rest, fetchesDone := s.fetchesDone + 1,
            notes := s.notes ++ nd.1, lastDetail := nd.2 }
          if p.status = some "FAILED" then
            { s1 with
              outcome := some (.jobFailed cfg.job_id
                (p.error.bind ErrorInfo.code)
                (p.error.bind ErrorInfo.detail)) }
          else if cfg.clock 0 + cfg.timeout ≤ cfg.clock (s.iter + 1) then
            { s1 with
              outcome := some (.timedOut cfg.job_id "STORYBOARD_READY"
                cfg.timeout) }
          else
            { s1 with iter := s.iter + 1, sleeps := s.sleeps + 1 }

/-- Interleaved execution of two independent stepped invocations under an
arbitrary schedule: `true` steps the first invocation, `false` the second. -/
def runPair {α β : Type} (f : α → α) (g : β → β) (sched : List Bool)
    (s : α × β) : α × β :=
  sched.foldl (fun st b => if b then (f st.1, st.2) else (st.1, g st.2)) s

/-- Number of machine steps a `Job.wait_for` trace takes: one per fetch, plus
the final no-fetch step when the supplied fetch stream runs dry. -/
def stepsOf (t : WaitTrace) : Nat :=
  if t.result = .outOfFetches then t.fetches + 1 else t.fetches

/-- Number of machine steps a storyboard-wait trace takes. -/
def sbStepsOf (t : SbTrace) : Nat :=
  if t.result = .outOfTicks then t.fetches + 1 else t.fetches

/-- One-step unfolding of `waitForLoop` on a successful fetch, stated so that
the recursive call appears exactly once per field and rewriting does not
loop. -/
lemma waitForLoop_cons_ok (job_id target : String) (timeout deadline : Nat)
    (clock : Nat → Nat) (i : Nat) (last : Option String) (data : StatusPayload)
    (rest : List FetchResult) :
    waitForLoop job_id target timeout deadline clock i last
        (.ok data :: rest) =
      if data.status.getD "" = target then
        ⟨.reached data, 1, (detailUpdate data.step_detail last).1, 0⟩
      else if data.status.getD "" = "FAILED" then
        ⟨.jobFailed job_id (data.error.bind ErrorInfo.code)
          (data.error.bind ErrorInfo.detail), 1,
          (detailUpdate data.step_detail last).1, 0⟩
      else if deadline ≤ clock (i + 1) then
        ⟨.timedOut job_id target timeout, 1,
          (detailUpdate data.step_detail last).1, 0⟩
      else
        ⟨(waitForLoop job_id target timeout deadline clock (i + 1)
            (detailUpdate data.step_detail last).2 rest).result,
         (waitForLoop job_id target timeout deadline clock (i + 1)
            (detailUpdate data.step_detail last).2 rest).fetches + 1,
         (detailUpdate data.step_detail last).1 ++
           (waitForLoop job_id target timeout deadline clock (i + 1)
            (detailUpdate data.step_detail last).2 rest).notes,
         (waitForLoop job_id target timeout deadline clock (i + 1)
            (detailUpdate data.step_detail last).2 rest).sleeps + 1⟩ := rfl

/-- One-step unfolding of `sbLoop` on a tick whose secondary status read
raises (and is suppressed). -/
lemma sbLoop_cons_err (job_id : String) (timeout deadline : Nat)
    (clock : Nat → Nat) (i : Nat) (last : Option String) (d : SbData)
    (rest : List SbTick) :
    sbLoop job_id timeout deadline clock i last (.ok d .err :: rest) =
      if d.sb_exists then ⟨.ready d, 1, [], 0⟩
      else if deadline ≤ clock (i + 1) then
        ⟨.timedOut job_id "STORYBOARD_READY" timeout, 1, [], 0⟩
      else
        ⟨(sbLoop job_id timeout deadline clock (i + 1) last rest).result,
         (sbLoop job_id timeout deadline clock (i + 1) last rest).fetches + 1,
         (sbLoop job_id timeout deadline clock (i + 1) last rest).notes,
         (sbLoop job_id timeout deadline clock (i + 1) last rest).sleeps + 1⟩ := by
  by_cases h : d.sb_exists <;> simp only [sbLoop, h]

/-- One-step unfolding of `sbLoop` on a tick whose secondary status read
returns a payload. -/
lemma sbLoop_cons_sec (job_id : String) (timeout deadline : Nat)
    (clock : Nat → Nat) (i : Nat) (last : Option String) (d : SbData)
    (p : StatusPayload) (rest : List SbTick) :
    sbLoop job_id timeout deadline clock i last (.ok d (.ok p) :: rest) =
      if d.sb_exists then ⟨.ready d, 1, [], 0⟩
      else if p.status = some "FAILED" then
        ⟨.jobFailed job_id (p.error.bind ErrorInfo.code)
          (p.error.bind ErrorInfo.detail), 1,
          (detailUpdate p.step_detail last).1, 0⟩
      else if deadline ≤ clock (i + 1) then
        ⟨.timedOut job_id "STORYBOARD_READY" timeout, 1,
          (detailUpdate p.step_detail last).1, 0⟩
      else
        ⟨(sbLoop job_id timeout deadline clock (i + 1)
            (detailUpdate p.step_detail last).2 rest).result,
         (sbLoop job_id timeout deadline clock (i + 1)
            (detailUpdate p.step_detail last).2 rest).fetches + 1,
         (detailUpdate p.step_detail last).1 ++
           (sbLoop job_id timeout deadline clock (i + 1)
            (detailUpdate p.step_detail last).2 rest).notes,
         (sbLoop job_id timeout deadline clock (i + 1)
            (detailUpdate p.step_detail last).2 rest).sleeps + 1⟩ := by
  by_cases h : d.sb_exists <;> simp only [sbLoop, h]

/-- A prefix of payloads none of which equals the target, is `"FAILED"`, or
hits the deadline, is skipped by the loop: the trace continues with the
remaining fetches at the advanced iteration index (for some `_last_detail`
value), accumulating one fetch and one sleep per skipped payload. -/
lemma waitForLoop_skip (job_id target : String) (timeout deadline : Nat)
    (clock : Nat → Nat) :
    ∀ (pre : List StatusPayload) (i : Nat) (last : Option String)
      (fs : List FetchResult),
      (∀ q ∈ pre, q.status.getD "" ≠ target) →
      (∀ q ∈ pre, q.status.getD "" ≠ "FAILED") →
      (∀ j, j < pre.length → clock (i + j + 1) < deadline) →
      ∃ last' notesPre,
        waitForLoop job_id target timeout deadline clock i last
            (pre.map FetchResult.ok ++ fs) =
          ⟨(waitForLoop job_id target timeout deadline clock (i + pre.length)
              last' fs).result,
           pre.length + (waitForLoop job_id target timeout deadline clock
              (i + pre.length) last' fs).fetches,
           notesPre ++ (waitForLoop job_id target timeout deadline clock
              (i + pre.length) last' fs).notes,
           pre.length + (waitForLoop job_id target timeout deadline clock
              (i + pre.length) last' fs).sleeps⟩ := by
  intro pre
  induction pre with
  | nil =>
    intro i last fs _ _ _
    exact ⟨last, [], by simp⟩
  | cons p pre ih =>
    intro i last fs ht hf hc
    have hpt : ¬ p.status.getD "" = target := ht p (List.mem_cons_self p pre)
    have hpf : ¬ p.status.getD "" = "FAILED" := hf p (List.mem_cons_self p pre)
    have hc0 : clock (i + 1) < deadline := by
      have := hc 0 (Nat.succ_pos _)
      simpa using this
    obtain ⟨last', notesPre, heq⟩ :=
      ih (i + 1) (detailUpdate p.step_detail last).2 fs
        (fun q hq => ht q (List.mem_cons_of_mem p hq))
        (fun q hq => hf q (List.mem_cons_of_mem p hq))
        (fun j hj => by
          have := hc (j + 1) (Nat.succ_lt_succ hj)
          have harith : i + (j + 1) + 1 = i + 1 + j + 1 := by omega
          rwa [harith] at this)
    refine ⟨last', (detailUpdate p.step_detail last).1 ++ notesPre, ?_⟩
    have harith : i + 1 + pre.length = i + (p :: pre).length := by
      simp [List.length_cons]; omega
    rw [harith] at heq
    rw [List.map_cons, List.cons_append, waitForLoop_cons_ok,
      if_neg hpt, if_neg hpf, if_neg (not_le.mpr hc0), heq]
    simp only [WaitTrace.mk.injEq, List.length_cons, List.append_assoc,
      true_and, and_true]
    omega

/-- C1: if the `N`-th fetched payload (here `N = pre.length + 1`) is the first
whose status equals the target, no earlier payload has status `"FAILED"`, and
no earlier timeout check fires, then `Job.wait_for` returns that payload
unchanged and performs exactly `N` fetches. -/
theorem wait_for_returns_nth_reached
    (job_id target : String) (timeout : Nat) (clock : Nat → Nat)
    (pre : List StatusPayload) (p : StatusPayload) (rest : List StatusPayload)
    (hp : p.status.getD "" = target)
    (hpre_t : ∀ q ∈ pre, q.status.getD "" ≠ target)
    (hpre_f : ∀ q ∈ pre, q.status.getD "" ≠ "FAILED")
    (hclock : ∀ j, j < pre.length → clock (j + 1) < clock 0 + timeout) :
    (Job.wait_for job_id target timeout clock
        ((pre ++ p :: rest).map FetchResult.ok)).result = .reached p ∧
      (Job.wait_for job_id target timeout clock
        ((pre ++ p :: rest).map FetchResult.ok)).fetches = pre.length + 1 := by
  obtain ⟨last', notesPre, heq⟩ :=
    waitForLoop_skip job_id target timeout (clock 0 + timeout) clock pre 0 none
      ((p :: rest).map FetchResult.ok) hpre_t hpre_f
      (fun j hj => by simpa using hclock j hj)
  rw [show (pre ++ p :: rest).map FetchResult.ok
        = pre.map FetchResult.ok ++ (p :: rest).map FetchResult.ok by
      simp]
  unfold Job.wait_for
  rw [heq]
  simp [waitForLoop, hp]

/-- Witness for C1: target reached on the second fetch after one pending
payload; the second payload is returned and exactly two fetches happen. -/
theorem wait_for_returns_nth_reached_witness :
    (Job.wait_for "j" "COMPLETED" 300 (fun _ => 0)
        ([⟨some "RUNNING_INJECT", none, none⟩,
          ⟨some "COMPLETED", some "done", none⟩].map FetchResult.ok)).result =
        .reached ⟨some "COMPLETED", some "done", none⟩ ∧
      (Job.wait_for "j" "COMPLETED" 300 (fun _ => 0)
        ([⟨some "RUNNING_INJECT", none, none⟩,
          ⟨some "COMPLETED", some "done", none⟩].map FetchResult.ok)).fetches
        = 2 := by
  have h := wait_for_returns_nth_reached "j" "COMPLETED" 300 (fun _ => 0)
    [⟨some "RUNNING_INJECT", none, none⟩] ⟨some "COMPLETED", some "done", none⟩
    [] (by decide) (by decide) (by decide)
    (fun j _ => by show (0 : Nat) < 0 + 300; omega)
  simpa using h

/-- C2: if some payload has status `"FAILED"` strictly before any payload
whose status equals the target (so in particular the target is not
`"FAILED"`), and no earlier payload is `"FAILED"` or hits the deadline, then
`Job.wait_for` terminates with `JobFailedError` carrying the code and detail
extracted from that payload's `error` sub-object, whatever the target was,
and performs no fetch after that payload. -/
theorem wait_for_fails_on_failed_payload
    (job_id target : String) (timeout : Nat) (clock : Nat → Nat)
    (pre : List StatusPayload) (p : StatusPayload) (rest : List StatusPayload)
    (hp : p.status.getD "" = "FAILED")
    (htarget : target ≠ "FAILED")
    (hpre_t : ∀ q ∈ pre, q.status.getD "" ≠ target)
    (hpre_f : ∀ q ∈ pre, q.status.getD "" ≠ "FAILED")
    (hclock : ∀ j, j < pre.length → clock (j + 1) < clock 0 + timeout) :
    (Job.wait_for job_id target timeout clock
        ((pre ++ p :: rest).map FetchResult.ok)).result =
        .jobFailed job_id (p.error.bind ErrorInfo.code)
          (p.error.bind ErrorInfo.detail) ∧
      (Job.wait_for job_id target timeout clock
        ((pre ++ p :: rest).map FetchResult.ok)).fetches = pre.length + 1 := by
  obtain ⟨last', notesPre, heq⟩ :=
    waitForLoop_skip job_id target timeout (clock 0 + timeout) clock pre 0 none
      ((p :: rest).map FetchResult.ok) hpre_t hpre_f
      (fun j hj => by simpa using hclock j hj)
  have hpt : ¬ p.status.getD "" = target := by
    rw [hp]; exact fun h => htarget h.symm
  rw [show (pre ++ p :: rest).map FetchResult.ok
        = pre.map FetchResult.ok ++ (p :: rest).map FetchResult.ok by
      simp]
  unfold Job.wait_for
  rw [heq]
  have h2 : ¬ ("FAILED" = target) := fun h => htarget h.symm
  simp [waitForLoop, hpt, hp, h2]

/-- Witness for C2: waiting for `"COMPLETED"`, the second payload is
`"FAILED"` with an error object: `JobFailedError` carries its code and
detail, after exactly two fetches. -/
theorem wait_for_fails_on_failed_payload_witness :
    (Job.wait_for "j" "COMPLETED" 300 (fun _ => 0)
        ([⟨some "RUNNING_INJECT", none, none⟩,
          ⟨some "FAILED", none, some ⟨some "E42", some "render crashed"⟩⟩].map
          FetchResult.ok)).result =
        .jobFailed "j" (some "E42") (some "render crashed") ∧
      (Job.wait_for "j" "COMPLETED" 300 (fun _ => 0)
        ([⟨some "RUNNING_INJECT", none, none⟩,
          ⟨some "FAILED", none, some ⟨some "E42", some "render crashed"⟩⟩].map
          FetchResult.ok)).fetches = 2 := by
  have h := wait_for_fails_on_failed_payload "j" "COMPLETED" 300 (fun _ => 0)
    [⟨some "RUNNING_INJECT", none, none⟩]
    ⟨some "FAILED", none, some ⟨some "E42", some "render crashed"⟩⟩ []
    (by decide) (by decide) (by decide) (by decide)
    (fun j _ => by show (0 : Nat) < 0 + 300; omega)
  simpa using h

/-- C7: a transport error raised by the very first `self.status()` call
propagates out of `Job.wait_for` at once: the trace records exactly one fetch,
no notifications, and no sleep. -/
theorem wait_for_transport_error_first_fetch
    (job_id target : String) (timeout : Nat) (clock : Nat → Nat)
    (rest : List FetchResult) :
    Job.wait_for job_id target timeout clock (.err :: rest) =
      ⟨.transportError, 1, [], 0⟩ := rfl

/-- C3: the reached check precedes the failure check: whenever the first
fetched payload's status equals the target status, `Job.wait_for` returns that
payload immediately — in particular, when the target is `"FAILED"` itself, no
`JobFailedError` is raised for that payload. -/
theorem wait_for_reached_check_first
    (job_id target : String) (timeout : Nat) (clock : Nat → Nat)
    (p : StatusPayload) (rest : List FetchResult)
    (hp : p.status.getD "" = target) :
    (Job.wait_for job_id target timeout clock (.ok p :: rest)).result =
        .reached p ∧
      (Job.wait_for job_id target timeout clock (.ok p :: rest)).fetches = 1 := by
  simp [Job.wait_for, waitForLoop, hp]

/-- Witness for C3 at a concrete input with target `"FAILED"`: the payload
with status `"FAILED"` is returned, not raised. -/
theorem wait_for_reached_check_first_witness :
    (Job.wait_for "j" "FAILED" 300 (fun _ => 0)
        [.ok ⟨some "FAILED", none, some ⟨some "E", some "boom"⟩⟩]).result =
        .reached ⟨some "FAILED", none, some ⟨some "E", some "boom"⟩⟩ ∧
      (Job.wait_for "j" "FAILED" 300 (fun _ => 0)
        [.ok ⟨some "FAILED", none, some ⟨some "E", some "boom"⟩⟩]).fetches = 1 :=
  wait_for_reached_check_first "j" "FAILED" 300 (fun _ => 0)
    ⟨some "FAILED", none, some ⟨some "E", some "boom"⟩⟩ [] (by decide)

/-- C6: with `timeout = 0` the deadline is `clock 0`, so provided the clock is
monotone across the first iteration and the first payload neither equals the
target nor is `"FAILED"`, `Job.wait_for` performs exactly one fetch, raises
`WaitTimeout`, and never sleeps: the fetch happens before any sleep. -/
theorem wait_for_zero_timeout_one_fetch
    (job_id target : String) (clock : Nat → Nat) (p : StatusPayload)
    (rest : List FetchResult)
    (ht : p.status.getD "" ≠ target)
    (hf : p.status.getD "" ≠ "FAILED")
    (hmono : clock 0 ≤ clock 1) :
    (Job.wait_for job_id target 0 clock (.ok p :: rest)).result =
        .timedOut job_id target 0 ∧
      (Job.wait_for job_id target 0 clock (.ok p :: rest)).fetches = 1 ∧
      (Job.wait_for job_id target 0 clock (.ok p :: rest)).sleeps = 0 := by
  simp [Job.wait_for, waitForLoop, ht, hf, hmono]

/-- Witness for C6: pending payload, identity clock, zero timeout: one fetch,
timed out, zero sleeps. -/
theorem wait_for_zero_timeout_one_fetch_witness :
    (Job.wait_for "j" "COMPLETED" 0 (fun n => n)
        [.ok ⟨some "CREATED", none, none⟩]).result =
        .timedOut "j" "COMPLETED" 0 ∧
      (Job.wait_for "j" "COMPLETED" 0 (fun n => n)
        [.ok ⟨some "CREATED", none, none⟩]).fetches = 1 ∧
      (Job.wait_for "j" "COMPLETED" 0 (fun n => n)
        [.ok ⟨some "CREATED", none, none⟩]).sleeps = 0 :=
  wait_for_zero_timeout_one_fetch "j" "COMPLETED" (fun n => n)
    ⟨some "CREATED", none, none⟩ [] (by decide) (by decide) (by decide)

/-- C4: in `_wait_for_storyboard_session`, (a) an exception from the primary
storyboard fetch is never suppressed and aborts the wait at once; (b) an
exception from the secondary job-status read is suppressed for the tick and
the wait continues with the remaining ticks; (c) the deliberate
`JobFailedError` raised on a secondary payload with status `"FAILED"`
propagates past the suppression, carrying the error code and detail. -/
theorem sb_wait_secondary_suppression :
    (∀ (job_id : String) (timeout : Nat) (clock : Nat → Nat)
       (rest : List SbTick),
        _wait_for_storyboard_session job_id timeout clock (.primaryErr :: rest)
          = ⟨.transportError, 1, [], 0⟩) ∧
    (∀ (job_id : String) (timeout : Nat) (clock : Nat → Nat) (d : SbData)
       (rest : List SbTick),
        d.sb_exists = false →
        clock 1 < clock 0 + timeout →
        _wait_for_storyboard_session job_id timeout clock
            (.ok d .err :: rest)
          = ⟨(sbLoop job_id timeout (clock 0 + timeout) clock 1 none
                rest).result,
             (sbLoop job_id timeout (clock 0 + timeout) clock 1 none
                rest).fetches + 1,
             (sbLoop job_id timeout (clock 0 + timeout) clock 1 none
                rest).notes,
             (sbLoop job_id timeout (clock 0 + timeout) clock 1 none
                rest).sleeps + 1⟩) ∧
    (∀ (job_id : String) (timeout : Nat) (clock : Nat → Nat) (d : SbData)
       (p : StatusPayload) (rest : List SbTick),
        d.sb_exists = false →
        p.status = some "FAILED" →
        (_wait_for_storyboard_session job_id timeout clock
            (.ok d (.ok p) :: rest)).result
          = .jobFailed job_id (p.error.bind ErrorInfo.code)
              (p.error.bind ErrorInfo.detail)) := by
  refine ⟨fun job_id timeout clock rest => rfl, ?_, ?_⟩
  · intro job_id timeout clock d rest hd hck
    show sbLoop job_id timeout (clock 0 + timeout) clock 0 none
      (.ok d .err :: rest) = _
    rw [sbLoop_cons_err, if_neg (by simp [hd]),
      if_neg (by simpa using not_le.mpr hck)]
  · intro job_id timeout clock d p rest hd hp
    show (sbLoop job_id timeout (clock 0 + timeout) clock 0 none
      (.ok d (.ok p) :: rest)).result = _
    rw [sbLoop_cons_sec, if_neg (by simp [hd]), if_pos hp]

/-- Witness for C4 at concrete inputs: the primary error aborts at once, the
suppressed secondary error lets the wait continue to its next tick, and the
secondary `"FAILED"` payload raises `JobFailedError` with its code/detail. -/
theorem sb_wait_secondary_suppression_witness :
    (_wait_for_storyboard_session "j" 300 (fun _ => 0) [.primaryErr]
        = ⟨.transportError, 1, [], 0⟩) ∧
    (_wait_for_storyboard_session "j" 300 (fun _ => 0) [.ok ⟨false, 7⟩ .err]
        = ⟨.outOfTicks, 1, [], 1⟩) ∧
    ((_wait_for_storyboard_session "j" 300 (fun _ => 0)
        [.ok ⟨false, 7⟩ (.ok ⟨some "FAILED", none,
          some ⟨some "E9", some "compose crashed"⟩⟩)]).result
        = .jobFailed "j" (some "E9") (some "compose crashed")) := by
  refine ⟨sb_wait_secondary_suppression.1 "j" 300 (fun _ => 0) [], ?_,
    sb_wait_secondary_suppression.2.2 "j" 300 (fun _ => 0) ⟨false, 7⟩
      ⟨some "FAILED", none, some ⟨some "E9", some "compose crashed"⟩⟩ []
      rfl rfl⟩
  exact (sb_wait_secondary_suppression.2.1 "j" 300 (fun _ => 0) ⟨false, 7⟩ []
    rfl (by decide)).trans rfl

/-- Case analysis on the progress-notification step: either the detail is
falsy or unchanged (nothing emitted, `_last_detail` untouched), or a new
truthy detail is emitted once and becomes the new `_last_detail`. -/
lemma detailUpdate_cases (sd last : Option String) :
    detailUpdate sd last = ([], last) ∨
      ∃ d, detailUpdate sd last = ([d], some d) ∧ some d ≠ last := by
  match sd with
  | none => exact Or.inl rfl
  | some d =>
    by_cases h1 : d = ""
    · exact Or.inl (by simp [detailUpdate, h1])
    · by_cases h2 : some d = last
      · exact Or.inl (by simp [detailUpdate, h1, h2])
      · exact Or.inr ⟨d, by simp [detailUpdate, h1, h2], h2⟩

/-- The notifications of the polling loop never repeat the immediately
preceding notification, and the first one differs from the incoming
`_last_detail`. -/
lemma waitForLoop_notes_adjacent (job_id target : String)
    (timeout deadline : Nat) (clock : Nat → Nat) :
    ∀ (fs : List FetchResult) (i : Nat) (last : Option String),
      List.Chain' (fun a b => a ≠ b)
        ((waitForLoop job_id target timeout deadline clock i last fs).notes) ∧
      ∀ x, ((waitForLoop job_id target timeout deadline clock i last
          fs).notes).head? = some x → some x ≠ last := by
  intro fs
  induction fs with
  | nil =>
    intro i last
    exact ⟨List.chain'_nil, fun x hx => by simp [waitForLoop] at hx⟩
  | cons f rest ih =>
    intro i last
    cases f with
    | err =>
      exact ⟨List.chain'_nil, fun x hx => by simp [waitForLoop] at hx⟩
    | ok data =>
      rw [waitForLoop_cons_ok]
      rcases detailUpdate_cases data.step_detail last with hnd | ⟨d, hnd, hne⟩
      · rw [hnd]
        split_ifs with h1 h2 h3
        · exact ⟨List.chain'_nil, fun x hx => by simp at hx⟩
        · exact ⟨List.chain'_nil, fun x hx => by simp at hx⟩
        · exact ⟨List.chain'_nil, fun x hx => by simp at hx⟩
        · simpa using ih (i + 1) last
      · rw [hnd]
        split_ifs with h1 h2 h3
        · exact ⟨List.chain'_singleton d, fun x hx => by
            simp at hx; subst hx; exact hne⟩
        · exact ⟨List.chain'_singleton d, fun x hx => by
            simp at hx; subst hx; exact hne⟩
        · exact ⟨List.chain'_singleton d, fun x hx => by
            simp at hx; subst hx; exact hne⟩
        · obtain ⟨hchain, hhead⟩ := ih (i + 1) (some d)
          constructor
          · rw [List.singleton_append, List.chain'_cons']
            refine ⟨fun y hy hdy => ?_, hchain⟩
            exact hhead y (by simpa using hy) (by rw [hdy])
          · intro x hx
            have hdx : d = x := by simpa using hx
            subst hdx
            exact hne

/-- C5: progress notifications are de-duplicated only against the immediately
preceding distinct value: no two consecutive notifications are equal, and the
concrete fetch sequence with step details `A, A, B, B, A` emits exactly the
three notifications `A, B, A`, the last tick reaching the target. -/
theorem wait_for_progress_dedup :
    (∀ (job_id target : String) (timeout : Nat) (clock : Nat → Nat)
       (fs : List FetchResult),
        List.Chain' (fun a b => a ≠ b)
          ((Job.wait_for job_id target timeout clock fs).notes)) ∧
    (Job.wait_for "j" "COMPLETED" 300 (fun _ => 0)
        ([⟨some "RUNNING_COMPOSE_PRE", some "A", none⟩,
          ⟨some "RUNNING_COMPOSE_PRE", some "A", none⟩,
          ⟨some "RUNNING_INJECT", some "B", none⟩,
          ⟨some "RUNNING_INJECT", some "B", none⟩,
          ⟨some "COMPLETED", some "A", none⟩].map FetchResult.ok)).notes
      = ["A", "B", "A"] := by
  constructor
  · intro job_id target timeout clock fs
    exact (waitForLoop_notes_adjacent job_id target timeout
      (clock 0 + timeout) clock fs 0 none).1
  · decide

/-- C10: a falsy step detail (absent, `None`, or the empty string) neither
emits a notification nor updates `_last_detail`; consequently the fetch
sequences with details `A, empty, A` and `A, None, A` each emit exactly the
single notification `A`, the empty/missing value not resetting the
de-duplication state. -/
theorem wait_for_falsy_detail_ignored :
    (∀ last : Option String,
        detailUpdate (some "") last = ([], last) ∧
        detailUpdate none last = ([], last)) ∧
    (Job.wait_for "j" "COMPLETED" 300 (fun _ => 0)
        ([⟨some "CREATED", some "A", none⟩,
          ⟨some "QUEUED_COMPOSE_PRE", some "", none⟩,
          ⟨some "COMPLETED", some "A", none⟩].map FetchResult.ok)).notes
      = ["A"] ∧
    (Job.wait_for "j" "COMPLETED" 300 (fun _ => 0)
        ([⟨some "CREATED", some "A", none⟩,
          ⟨some "QUEUED_COMPOSE_PRE", none, none⟩,
          ⟨some "COMPLETED", some "A", none⟩].map FetchResult.ok)).notes
      = ["A"] :=
  ⟨fun last => ⟨rfl, rfl⟩, by decide, by decide⟩

/-- C8: the deadline is computed exactly once at wait-start as
`monotonic-now + timeout` (the definitional start equations of both loops),
and is never recomputed: after start, the loops consult the clock only
through readings `1, 2, ...` — two clocks that agree on every reading after
the initial one yield identical traces for the same precomputed deadline, in
both `Job.wait_for` and `_wait_for_storyboard_session`. -/
theorem wait_deadline_once
    : (∀ (job_id target : String) (timeout : Nat) (clock : Nat → Nat)
         (fs : List FetchResult),
          Job.wait_for job_id target timeout clock fs
            = waitForLoop job_id target timeout (clock 0 + timeout) clock 0
                none fs) ∧
      (∀ (job_id target : String) (timeout deadline : Nat)
         (c1 c2 : Nat → Nat),
          (∀ n, c1 (n + 1) = c2 (n + 1)) →
          ∀ (fs : List FetchResult) (i : Nat) (last : Option String),
            waitForLoop job_id target timeout deadline c1 i last fs
              = waitForLoop job_id target timeout deadline c2 i last fs) ∧
      (∀ (job_id : String) (timeout : Nat) (clock : Nat → Nat)
         (ticks : List SbTick),
          _wait_for_storyboard_session job_id timeout clock ticks
            = sbLoop job_id timeout (clock 0 + timeout) clock 0 none ticks) ∧
      (∀ (job_id : String) (timeout deadline : Nat) (c1 c2 : Nat → Nat),
          (∀ n, c1 (n + 1) = c2 (n + 1)) →
          ∀ (ticks : List SbTick) (i : Nat) (last : Option String),
            sbLoop job_id timeout deadline c1 i last ticks
              = sbLoop job_id timeout deadline c2 i last ticks) := by
  refine ⟨fun _ _ _ _ _ => rfl, ?_, fun _ _ _ _ => rfl, ?_⟩
  · intro job_id target timeout deadline c1 c2 h fs
    induction fs with
    | nil => intro i last; rfl
    | cons f rest ih =>
      intro i last
      cases f with
      | err => rfl
      | ok data =>
        rw [waitForLoop_cons_ok, waitForLoop_cons_ok, h i,
          ih (i + 1) (detailUpdate data.step_detail last).2]
  · intro job_id timeout deadline c1 c2 h ticks
    induction ticks with
    | nil => intro i last; rfl
    | cons t rest ih =>
      intro i last
      cases t with
      | primaryErr => rfl
      | ok d sec =>
        cases sec with
        | err =>
          rw [sbLoop_cons_err, sbLoop_cons_err, h i, ih (i + 1) last]
        | ok p =>
          rw [sbLoop_cons_sec, sbLoop_cons_sec, h i,
            ih (i + 1) (detailUpdate p.step_detail last).2]

/-- Witness for C8: two clocks that differ only at reading 0 produce the same
loop trace once the common deadline is fixed, in both loops. -/
theorem wait_deadline_once_witness :
    waitForLoop "j" "COMPLETED" 5 9 (fun n => n) 0 none
        [FetchResult.ok ⟨some "CREATED", none, none⟩]
      = waitForLoop "j" "COMPLETED" 5 9 (fun n => if n = 0 then 100 else n) 0
          none [FetchResult.ok ⟨some "CREATED", none, none⟩] ∧
    sbLoop "j" 5 9 (fun n => n) 0 none [SbTick.ok ⟨false, 0⟩ SecFetch.err]
      = sbLoop "j" 5 9 (fun n => if n = 0 then 100 else n) 0 none
          [SbTick.ok ⟨false, 0⟩ SecFetch.err] := by
  constructor
  · exact wait_deadline_once.2.1 "j" "COMPLETED" 5 9 (fun n => n)
      (fun n => if n = 0 then 100 else n) (fun n => by simp)
      [FetchResult.ok ⟨some "CREATED", none, none⟩] 0 none
  · exact wait_deadline_once.2.2.2 "j" 5 9 (fun n => n)
      (fun n => if n = 0 then 100 else n) (fun n => by simp)
      [SbTick.ok ⟨false, 0⟩ SecFetch.err] 0 none

/-- Interleaving two independent step functions under any schedule acts
componentwise: each side advances by exactly its own number of scheduled
steps, regardless of how the steps are interleaved. -/
lemma runPair_eq {α β : Type} (f : α → α) (g : β → β) :
    ∀ (sched : List Bool) (a : α) (b : β),
      runPair f g sched (a, b)
        = (f^[sched.count true] a, g^[sched.count false] b) := by
  intro sched
  induction sched with
  | nil => intro a b; rfl
  | cons x sched ih =>
    intro a b
    cases x with
    | false =>
      show runPair f g sched (a, g b) = _
      rw [ih]
      have h1 : (false :: sched).count true = sched.count true := by simp
      have h2 : (false :: sched).count false = sched.count false + 1 := by
        simp
      rw [h1, h2, Function.iterate_succ_apply]
    | true =>
      show runPair f g sched (f a, b) = _
      rw [ih]
      have h1 : (true :: sched).count true = sched.count true + 1 := by simp
      have h2 : (true :: sched).count false = sched.count false := by simp
      rw [h1, h2, Function.iterate_succ_apply]

/-- Driving the `Job.wait_for` step machine from an arbitrary mid-loop state
for as many steps as the recursive trace prescribes lands in a finished state
carrying exactly that trace's result, fetch count, notifications and
sleeps. -/
lemma stepOnce_realizes_waitForLoop (cfg : WaitConfig) :
    ∀ (rem : List FetchResult) (i : Nat) (last : Option String)
      (fd : Nat) (ns : List String) (sl : Nat),
      ∃ i' last' rem',
        (stepOnce cfg)^[stepsOf (waitForLoop cfg.job_id cfg.target cfg.timeout
            (cfg.clock 0 + cfg.timeout) cfg.clock i last rem)]
            ⟨i, last, fd, ns, sl, rem, none⟩
          = ⟨i', last',
             fd + (waitForLoop cfg.job_id cfg.target cfg.timeout
                (cfg.clock 0 + cfg.timeout) cfg.clock i last rem).fetches,
             ns ++ (waitForLoop cfg.job_id cfg.target cfg.timeout
                (cfg.clock 0 + cfg.timeout) cfg.clock i last rem).notes,
             sl + (waitForLoop cfg.job_id cfg.target cfg.timeout
                (cfg.clock 0 + cfg.timeout) cfg.clock i last rem).sleeps,
             rem',
             some (waitForLoop cfg.job_id cfg.target cfg.timeout
                (cfg.clock 0 + cfg.timeout) cfg.clock i last rem).result⟩ := by
  intro rem
  induction rem with
  | nil =>
    intro i last fd ns sl
    refine ⟨i, last, [], ?_⟩
    have ht : waitForLoop cfg.job_id cfg.target cfg.timeout
        (cfg.clock 0 + cfg.timeout) cfg.clock i last []
        = ⟨.outOfFetches, 0, [], 0⟩ := rfl
    rw [ht]
    simp [stepsOf, stepOnce]
  | cons f rest ih =>
    intro i last fd ns sl
    cases f with
    | err =>
      refine ⟨i, last, rest, ?_⟩
      have ht : waitForLoop cfg.job_id cfg.target cfg.timeout
          (cfg.clock 0 + cfg.timeout) cfg.clock i last (.err :: rest)
          = ⟨.transportError, 1, [], 0⟩ := rfl
      rw [ht]
      simp [stepsOf, stepOnce]
    | ok data =>
      set nd := detailUpdate data.step_detail last with hnd
      by_cases h1 : data.status.getD "" = cfg.target
      · refine ⟨i, nd.2, rest, ?_⟩
        have ht : waitForLoop cfg.job_id cfg.target cfg.timeout
            (cfg.clock 0 + cfg.timeout) cfg.clock i last (.ok data :: rest)
            = ⟨.reached data, 1, nd.1, 0⟩ := by
          rw [waitForLoop_cons_ok, if_pos h1]
        rw [ht]
        simp [stepsOf, stepOnce, h1]
      · by_cases h2 : data.status.getD "" = "FAILED"
        · refine ⟨i, nd.2, rest, ?_⟩
          have ht : waitForLoop cfg.job_id cfg.target cfg.timeout
              (cfg.clock 0 + cfg.timeout) cfg.clock i last (.ok data :: rest)
              = ⟨.jobFailed cfg.job_id (data.error.bind ErrorInfo.code)
                  (data.error.bind ErrorInfo.detail), 1, nd.1, 0⟩ := by
            rw [waitForLoop_cons_ok, if_neg h1, if_pos h2]
          have h1' : ¬ ("FAILED" = cfg.target) := by rw [← h2]; exact h1
          rw [ht]
          simp [stepsOf, stepOnce, h1, h2, h1']
        · by_cases h3 : cfg.clock 0 + cfg.timeout ≤ cfg.clock (i + 1)
          · refine ⟨i, nd.2, rest, ?_⟩
            have ht : waitForLoop cfg.job_id cfg.target cfg.timeout
                (cfg.clock 0 + cfg.timeout) cfg.clock i last
                  (.ok data :: rest)
                = ⟨.timedOut cfg.job_id cfg.target cfg.timeout, 1,
                    nd.1, 0⟩ := by
              rw [waitForLoop_cons_ok, if_neg h1, if_neg h2, if_pos h3]
            rw [ht]
            simp [stepsOf, stepOnce, h1, h2, h3]
          · set T := waitForLoop cfg.job_id cfg.target cfg.timeout
              (cfg.clock 0 + cfg.timeout) cfg.clock (i + 1) nd.2 rest with hT
            have ht : waitForLoop cfg.job_id cfg.target cfg.timeout
                (cfg.clock 0 + cfg.timeout) cfg.clock i last
                  (.ok data :: rest)
                = ⟨T.result, T.fetches + 1, nd.1 ++ T.notes,
                   T.sleeps + 1⟩ := by
              rw [waitForLoop_cons_ok, if_neg h1, if_neg h2, if_neg h3]
            obtain ⟨i', last', rem', hrec⟩ :=
              ih (i + 1) nd.2 (fd + 1) (ns ++ nd.1) (sl + 1)
            rw [← hT] at hrec
            refine ⟨i', last', rem', ?_⟩
            rw [ht]
            have hsteps : stepsOf ⟨T.result, T.fetches + 1, nd.1 ++ T.notes,
                T.sleeps + 1⟩ = stepsOf T + 1 := by
              by_cases ho : T.result = .outOfFetches <;> simp [stepsOf, ho]
            rw [hsteps, Function.iterate_succ_apply]
            have hstep : stepOnce cfg ⟨i, last, fd, ns, sl,
                .ok data :: rest, none⟩
                = ⟨i + 1, nd.2, fd + 1, ns ++ nd.1, sl + 1, rest, none⟩ := by
              simp [stepOnce, h1, h2, h3]
            rw [hstep, hrec]
            simp only [LoopState.mk.injEq, List.append_assoc, true_and,
              and_true]
            omega

/-- Driving the storyboard-wait step machine from an arbitrary mid-loop state
for as many steps as the recursive trace prescribes lands in a finished state
carrying exactly that trace's result, fetch count, notifications and
sleeps. -/
lemma sbStepOnce_realizes_sbLoop (cfg : SbConfig) :
    ∀ (rem : List SbTick) (i : Nat) (last : Option String)
      (fd : Nat) (ns : List String) (sl : Nat),
      ∃ i' last' rem',
        (sbStepOnce cfg)^[sbStepsOf (sbLoop cfg.job_id cfg.timeout
            (cfg.clock 0 + cfg.timeout) cfg.clock i last rem)]
            ⟨i, last, fd, ns, sl, rem, none⟩
          = ⟨i', last',
             fd + (sbLoop cfg.job_id cfg.timeout (cfg.clock 0 + cfg.timeout)
                cfg.clock i last rem).fetches,
             ns ++ (sbLoop cfg.job_id cfg.timeout (cfg.clock 0 + cfg.timeout)
                cfg.clock i last rem).notes,
             sl + (sbLoop cfg.job_id cfg.timeout (cfg.clock 0 + cfg.timeout)
                cfg.clock i last rem).sleeps,
             rem',
             some (sbLoop cfg.job_id cfg.timeout (cfg.clock 0 + cfg.timeout)
                cfg.clock i last rem).result⟩ := by
  intro rem
  induction rem with
  | nil =>
    intro i last fd ns sl
    refine ⟨i, last, [], ?_⟩
    have ht : sbLoop cfg.job_id cfg.timeout (cfg.clock 0 + cfg.timeout)
        cfg.clock i last [] = ⟨.outOfTicks, 0, [], 0⟩ := rfl
    rw [ht]
    simp [sbStepsOf, sbStepOnce]
  | cons t rest ih =>
    intro i last fd ns sl
    cases t with
    | primaryErr =>
      refine ⟨i, last, rest, ?_⟩
      have ht : sbLoop cfg.job_id cfg.timeout (cfg.clock 0 + cfg.timeout)
          cfg.clock i last (.primaryErr :: rest)
          = ⟨.transportError, 1, [], 0⟩ := rfl
      rw [ht]
      simp [sbStepsOf, sbStepOnce]
    | ok d sec =>
      by_cases hd : d.sb_exists
      · cases sec with
        | err =>
          refine ⟨i, last, rest, ?_⟩
          have ht : sbLoop cfg.job_id cfg.timeout (cfg.clock 0 + cfg.timeout)
              cfg.clock i last (.ok d .err :: rest)
              = ⟨.ready d, 1, [], 0⟩ := by
            rw [sbLoop_cons_err, if_pos hd]
          rw [ht]
          simp [sbStepsOf, sbStepOnce, hd]
        | ok p =>
          refine ⟨i, last, rest, ?_⟩
          have ht : sbLoop cfg.job_id cfg.timeout (cfg.clock 0 + cfg.timeout)
              cfg.clock i last (.ok d (.ok p) :: rest)
              = ⟨.ready d, 1, [], 0⟩ := by
            rw [sbLoop_cons_sec, if_pos hd]
          rw [ht]
          simp [sbStepsOf, sbStepOnce, hd]
      · cases sec with
        | err =>
          by_cases h3 : cfg.clock 0 + cfg.timeout ≤ cfg.clock (i + 1)
          · refine ⟨i, last, rest, ?_⟩
            have ht : sbLoop cfg.job_id cfg.timeout
                (cfg.clock 0 + cfg.timeout) cfg.clock i last
                  (.ok d .err :: rest)
                = ⟨.timedOut cfg.job_id "STORYBOARD_READY" cfg.timeout, 1,
                    [], 0⟩ := by
              rw [sbLoop_cons_err, if_neg hd, if_pos h3]
            rw [ht]
            simp [sbStepsOf, sbStepOnce, hd, h3]
          · set T := sbLoop cfg.job_id cfg.timeout (cfg.clock 0 + cfg.timeout)
              cfg.clock (i + 1) last rest with hT
            have ht : sbLoop cfg.job_id cfg.timeout
                (cfg.clock 0 + cfg.timeout) cfg.clock i last
                  (.ok d .err :: rest)
                = ⟨T.result, T.fetches + 1, T.notes, T.sleeps + 1⟩ := by
              rw [sbLoop_cons_err, if_neg hd, if_neg h3]
            obtain ⟨i', last', rem', hrec⟩ :=
              ih (i + 1) last (fd + 1) ns (sl + 1)
            rw [← hT] at hrec
            refine ⟨i', last', rem', ?_⟩
            rw [ht]
            have hsteps : sbStepsOf ⟨T.result, T.fetches + 1, T.notes,
                T.sleeps + 1⟩ = sbStepsOf T + 1 := by
              by_cases ho : T.result = .outOfTicks <;> simp [sbStepsOf, ho]
            rw [hsteps, Function.iterate_succ_apply]
            have hstep : sbStepOnce cfg ⟨i, last, fd, ns, sl,
                .ok d .err :: rest, none⟩
                = ⟨i + 1, last, fd + 1, ns, sl + 1, rest, none⟩ := by
              simp [sbStepOnce, hd, h3]
            rw [hstep, hrec]
            simp only [SbLoopState.mk.injEq, List.append_assoc, true_and,
              and_true]
            omega
        | ok p =>
          set nd := detailUpdate p.step_detail last with hnd
          by_cases hp : p.status = some "FAILED"
          · refine ⟨i, nd.2, rest, ?_⟩
            have ht : sbLoop cfg.job_id cfg.timeout
                (cfg.clock 0 + cfg.timeout) cfg.clock i last
                  (.ok d (.ok p) :: rest)
                = ⟨.jobFailed cfg.job_id (p.error.bind ErrorInfo.code)
                    (p.error.bind ErrorInfo.detail), 1, nd.1, 0⟩ := by
              rw [sbLoop_cons_sec, if_neg hd, if_pos hp]
            rw [ht]
            simp [sbStepsOf, sbStepOnce, hd, hp]
          · by_cases h3 : cfg.clock 0 + cfg.timeout ≤ cfg.clock (i + 1)
            · refine ⟨i, nd.2, rest, ?_⟩
              have ht : sbLoop cfg.job_id cfg.timeout
                  (cfg.clock 0 + cfg.timeout) cfg.clock i last
                    (.ok d (.ok p) :: rest)
                  = ⟨.timedOut cfg.job_id "STORYBOARD_READY" cfg.timeout, 1,
                      nd.1, 0⟩ := by
                rw [sbLoop_cons_sec, if_neg hd, if_neg hp, if_pos h3]
              rw [ht]
              simp [sbStepsOf, sbStepOnce, hd, hp, h3]
            · set T := sbLoop cfg.job_id cfg.timeout
                (cfg.clock 0 + cfg.timeout) cfg.clock (i + 1) nd.2 rest
                with hT
              have ht : sbLoop cfg.job_id cfg.timeout
                  (cfg.clock 0 + cfg.timeout) cfg.clock i last
                    (.ok d (.ok p) :: rest)
                  = ⟨T.result, T.fetches + 1, nd.1 ++ T.notes,
                     T.sleeps + 1⟩ := by
                rw [sbLoop_cons_sec, if_neg hd, if_neg hp, if_neg h3]
              obtain ⟨i', last', rem', hrec⟩ :=
                ih (i + 1) nd.2 (fd + 1) (ns ++ nd.1) (sl + 1)
              rw [← hT] at hrec
              refine ⟨i', last', rem', ?_⟩
              rw [ht]
              have hsteps : sbStepsOf ⟨T.result, T.fetches + 1,
                  nd.1 ++ T.notes, T.sleeps + 1⟩ = sbStepsOf T + 1 := by
                by_cases ho : T.result = .outOfTicks <;> simp [sbStepsOf, ho]
              rw [hsteps, Function.iterate_succ_apply]
              have hstep : sbStepOnce cfg ⟨i, last, fd, ns, sl,
                  .ok d (.ok p) :: rest, none⟩
                  = ⟨i + 1, nd.2, fd + 1, ns ++ nd.1, sl + 1, rest,
                     none⟩ := by
                simp [sbStepOnce, hd, hp, h3]
              rw [hstep, hrec]
              simp only [SbLoopState.mk.injEq, List.append_assoc, true_and,
                and_true]
              omega

/-- C9: a wait invocation is stateless across calls: all of an invocation's
state (deadline clock index, `_last_detail`, counters, outcome) lives in its
own `LoopState`, freshly initialized by `initState` / `sbInitState`, so two
invocations on independent resources — interleaved under any schedule, hence
also run sequentially — evolve exactly as the two isolated runs do
(conjuncts 1 and 2, including a job wait composed with a storyboard wait),
and the isolated stepped run realizes precisely the trace of the recursive
`Job.wait_for` / `_wait_for_storyboard_session` (conjuncts 3 and 4). -/
theorem wait_invocations_independent :
    (∀ (cfgA cfgB : WaitConfig) (fsA fsB : List FetchResult)
       (sched : List Bool),
        runPair (stepOnce cfgA) (stepOnce cfgB) sched
            (initState fsA, initState fsB)
          = ((stepOnce cfgA)^[sched.count true] (initState fsA),
             (stepOnce cfgB)^[sched.count false] (initState fsB))) ∧
    (∀ (cfgA : WaitConfig) (cfgB : SbConfig) (fsA : List FetchResult)
       (ticks : List SbTick) (sched : List Bool),
        runPair (stepOnce cfgA) (sbStepOnce cfgB) sched
            (initState fsA, sbInitState ticks)
          = ((stepOnce cfgA)^[sched.count true] (initState fsA),
             (sbStepOnce cfgB)^[sched.count false] (sbInitState ticks))) ∧
    (∀ (cfg : WaitConfig) (fs : List FetchResult),
      ∃ i' last' rem',
        (stepOnce cfg)^[stepsOf (Job.wait_for cfg.job_id cfg.target
            cfg.timeout cfg.clock fs)] (initState fs)
          = ⟨i', last',
             (Job.wait_for cfg.job_id cfg.target cfg.timeout cfg.clock
                fs).fetches,
             (Job.wait_for cfg.job_id cfg.target cfg.timeout cfg.clock
                fs).notes,
             (Job.wait_for cfg.job_id cfg.target cfg.timeout cfg.clock
                fs).sleeps,
             rem',
             some (Job.wait_for cfg.job_id cfg.target cfg.timeout cfg.clock
                fs).result⟩) ∧
    (∀ (cfg : SbConfig) (ticks : List SbTick),
      ∃ i' last' rem',
        (sbStepOnce cfg)^[sbStepsOf (_wait_for_storyboard_session cfg.job_id
            cfg.timeout cfg.clock ticks)] (sbInitState ticks)
          = ⟨i', last',
             (_wait_for_storyboard_session cfg.job_id cfg.timeout cfg.clock
                ticks).fetches,
             (_wait_for_storyboard_session cfg.job_id cfg.timeout cfg.clock
                ticks).notes,
             (_wait_for_storyboard_session cfg.job_id cfg.timeout cfg.clock
                ticks).sleeps,
             rem',
             some (_wait_for_storyboard_session cfg.job_id cfg.timeout
                cfg.clock ticks).result⟩) := by
  refine ⟨?_, ?_, ?_, ?_⟩
  · intro cfgA cfgB fsA fsB sched
    exact runPair_eq _ _ sched _ _
  · intro cfgA cfgB fsA ticks sched
    exact runPair_eq _ _ sched _ _
  · intro cfg fs
    obtain ⟨i', last', rem', h⟩ :=
      stepOnce_realizes_waitForLoop cfg fs 0 none 0 [] 0
    exact ⟨i', last', rem', by simpa [Job.wait_for, initState] using h⟩
  · intro cfg ticks
    obtain ⟨i', last', rem', h⟩ :=
      sbStepOnce_realizes_sbLoop cfg ticks 0 none 0 [] 0
    exact ⟨i', last', rem',
      by simpa [_wait_for_storyboard_session, sbInitState] using h⟩
